import Mathlib

/-!
# Pulse agent supervisor (`pulse.go`)

A shallow embedding of `src/pulse.go`: the parallelism configurator
(`setMaxProcs`), the start-up sequence of `main` and the signal handler spawned
by `startInterruptHandling`.

The process is modelled as a transition system with two threads of control, the
main goroutine and the handler goroutine, and an environment that may deliver
signals.  Every step appends the events it performs (log lines, calls to
`Start`/`Stop`, `runtime.GOMAXPROCS`, `os.Exit`) to a chronological trace.  Log
lines are emitted in the same step as the call that follows them in the same
function body; this removes no interleaving of the other events.

Packages `control` and `schedule` are not part of the sources.  What `main`
observes of them (the error returned by `Start()` and the field `c.Started` read
at line 55) is a parameter of the model, see `Env`.  Calls to `Start()` and
`Stop()` are assumed to return.
-/

namespace Pulse

/-! ## Data model -/

/-- A value of the interface `coreModule` (lines 29-32), identified by a number. -/
structure CoreModule where
  id : Nat
deriving DecidableEq, Repr

/-- The plugin controller `c := control.New()` (line 43). -/
def c : CoreModule := ⟨0⟩

/-- The scheduler `s := schedule.New(...)` (line 44). -/
def s : CoreModule := ⟨1⟩

/-- The module names passed to `startModule` and `printErrorAndExit`. -/
inductive Name where
  | pluginController  -- "Plugin Controller"
  | scheduler         -- "Scheduler"
deriving DecidableEq, Repr

/-- The signals registered with `signal.Notify` (line 102). -/
inductive Signal where
  | interrupt  -- os.Interrupt
  | kill       -- os.Kill
  | sigterm    -- syscall.SIGTERM
deriving DecidableEq, Repr

/-- Whether the operating system lets a process catch the signal: SIGKILL is
registered at line 102 like the others but can never be caught. -/
def Signal.caught : Signal → Bool
  | Signal.kill => false
  | _ => true

/-- The goroutine that performs a call. -/
inductive Thread where
  | main
  | handler
deriving DecidableEq, Repr

/-- The lines written with `fmt.Println`, `log.Println` and `log.Printf`. -/
inductive Line where
  | version                              -- line 37
  | warnNegative                         -- line 69
  | warnAbove (numProcs : Int)           -- line 73
  | setting (n : Int)                    -- line 79
  | warnMismatch (want actual : Int)     -- line 85
  | starting (name : Name)               -- line 90
  | error (name : Name)                  -- line 95
  | errorStarting (name : Name)          -- line 96
  | stopping                             -- line 107
  | exiting (sig : Signal)               -- line 111
deriving DecidableEq, Repr

/-- The observable actions of the process. -/
inductive Event where
  | print (l : Line)
  | gomaxprocs (n : Int)                     -- runtime.GOMAXPROCS(n), line 80
  | notify (modules : List CoreModule)       -- signal.Notify and `go func`, lines 102-113
  | startCall (m : CoreModule)               -- m.Start() is invoked
  | startRet (m : CoreModule) (err : Bool)   -- m.Start() returns; `err` says err != nil
  | stop (t : Thread) (m : CoreModule)       -- m.Stop() is invoked by goroutine `t`
  | exit (code : Int)                        -- os.Exit(code)
deriving DecidableEq, Repr

/-- What the program reads from its surroundings: the flags, the Go runtime and
the modules of packages `control` and `schedule`, which are not among the
sources and are therefore parameters. -/
structure Env where
  /-- The flag `version`. -/
  version : Bool
  /-- The flag `max_procs`. -/
  maxProcs : Int
  /-- The result of `runtime.NumCPU()`. -/
  numCPU : Int
  /-- The setting `runtime.GOMAXPROCS(0)` reports after `runtime.GOMAXPROCS(n)`. -/
  gomaxprocs : Int → Int
  /-- Whether `m.Start()` returns a non-nil error. -/
  startErr : CoreModule → Bool
  /-- The field `c.Started` once `c.Start()` has returned nil. -/
  startedAfterStart : Bool
  /-- The field `c.Started` once `c.Stop()` has been called. -/
  startedAfterStop : Bool

/-! ## Parallelism configurator -/

/-- The function `setMaxProcs` (lines 64-87): the events it performs, given the
flag `*maxProcs`, `runtime.NumCPU()` and the runtime's answer to the re-read. -/
def setMaxProcs (maxProcs numCPU : Int) (gomaxprocs : Int → Int) : List Event :=
  let numProcs := numCPU
  let r : List Event × Int :=
    if maxProcs ≤ 0 then
      ((if maxProcs < 0 then [Event.print Line.warnNegative] else []), 1)
    else if maxProcs > numProcs then
      ([Event.print (Line.warnAbove numProcs)], numProcs)
    else
      ([], maxProcs)
  let _maxProcs := r.2
  let actualNumProcs := gomaxprocs _maxProcs
  r.1 ++ [Event.print (Line.setting _maxProcs), Event.gomaxprocs _maxProcs] ++
    (if actualNumProcs ≠ _maxProcs then
      [Event.print (Line.warnMismatch _maxProcs actualNumProcs)]
    else [])

/-- The arguments of the calls `runtime.GOMAXPROCS(n)` in a trace, in order. -/
def gomaxprocsCalls (tr : List Event) : List Int :=
  tr.filterMap fun e => match e with
    | Event.gomaxprocs n => some n
    | _ => none

/-- A line is one of the two configuration warnings of lines 69 and 73. -/
def Line.isConfigWarning : Line → Bool
  | Line.warnNegative => true
  | Line.warnAbove _ => true
  | _ => false

/-- A line is the mismatch warning of line 85. -/
def Line.isMismatchWarning : Line → Bool
  | Line.warnMismatch _ _ => true
  | _ => false

/-- The configuration warnings among the events. -/
def configWarnings (tr : List Event) : List Line :=
  tr.filterMap fun e => match e with
    | Event.print l => if l.isConfigWarning then some l else none
    | _ => none

/-- The mismatch warnings among the events. -/
def mismatchWarnings (tr : List Event) : List Line :=
  tr.filterMap fun e => match e with
    | Event.print l => if l.isMismatchWarning then some l else none
    | _ => none

/-- The exit codes of the calls `os.Exit` in a trace. -/
def exitCalls (tr : List Event) : List Int :=
  tr.filterMap fun e => match e with
    | Event.exit n => some n
    | _ => none

/-! ## Process state -/

/-- Where the main goroutine stands in `main` (lines 34-62). -/
inductive MainPc where
  | parse          -- lines 35-39: flag.Parse and the version check
  | maxProcs       -- line 41: setMaxProcs()
  | newModules     -- lines 43-45: control.New, schedule.New, SetMetricManager
  | interrupt      -- line 48: startInterruptHandling(c, s)
  | startC         -- line 51: startModule("Plugin Controller", c) is called
  | inStartC       -- line 51: c.Start() is running
  | failC          -- line 52: printErrorAndExit("Plugin Controller", err)
  | startS         -- line 54: startModule("Scheduler", s) is called
  | inStartS       -- line 54: s.Start() is running
  | checkStarted   -- line 55: if c.Started
  | stopC          -- line 56: c.Stop()
  | failS          -- line 58: printErrorAndExit("Scheduler", err)
  | block          -- line 61: select {}
deriving DecidableEq, Repr

/-- Where the goroutine of lines 105-113 stands. -/
inductive HandlerPc where
  | absent                            -- not spawned yet
  | recv                              -- line 106: blocked in `sig := <-c` (Armed)
  | loop (sig : Signal) (i : Nat)     -- lines 108-110: about to visit modules[i] (Terminating)
  | done                              -- line 112: os.Exit(0) was called
deriving DecidableEq, Repr

/-- The channel `c := make(chan os.Signal, 1)` of line 101. -/
inductive Chan where
  | unregistered            -- signal.Notify has not been called
  | empty                   -- registered, buffer empty
  | full (sig : Signal)     -- registered, one signal buffered
deriving DecidableEq, Repr

/-- The state of the process. -/
structure State where
  /-- Program point of the main goroutine. -/
  pc : MainPc
  /-- Program point of the handler goroutine. -/
  handler : HandlerPc
  /-- The variadic argument `modules` captured by the handler goroutine. -/
  modules : List CoreModule
  /-- The signal channel. -/
  chan : Chan
  /-- The field `c.Started` of the plugin controller. -/
  cStarted : Bool
  /-- The status passed to `os.Exit`, once it has been called. -/
  exit : Option Int
  /-- The events performed so far, oldest first. -/
  trace : List Event
deriving DecidableEq, Repr

/-- The state at process start. -/
def init : State :=
  { pc := MainPc.parse, handler := HandlerPc.absent, modules := [], chan := Chan.unregistered,
    cStarted := false, exit := none, trace := [] }

/-- Append events to the trace. -/
def State.emit (st : State) (es : List Event) : State :=
  { st with trace := st.trace ++ es }

/-! ## The functions of `pulse.go` -/

/-- The function `startModule` (lines 89-92) up to the invocation of `m.Start()`. -/
def startModule (name : Name) (m : CoreModule) (st : State) : State :=
  st.emit [Event.print (Line.starting name), Event.startCall m]

/-- The return of `m.Start()`: the error comes from the module; a successful
start of the plugin controller writes its field `Started`. -/
def startReturn (env : Env) (m : CoreModule) (st : State) : State :=
  let st := st.emit [Event.startRet m (env.startErr m)]
  if m = c ∧ env.startErr m = false then { st with cStarted := env.startedAfterStart } else st

/-- A call `m.Stop()` by goroutine `t`; stopping the plugin controller writes its
field `Started`. -/
def stopModule (env : Env) (t : Thread) (m : CoreModule) (st : State) : State :=
  let st := st.emit [Event.stop t m]
  if m = c then { st with cStarted := env.startedAfterStop } else st

/-- The function `printErrorAndExit` (lines 94-98). -/
def printErrorAndExit (name : Name) (st : State) : State :=
  { st.emit [Event.print (Line.error name), Event.print (Line.errorStarting name), Event.exit 1]
    with exit := some 1 }

/-- The function `startInterruptHandling` (lines 100-114): make the channel,
register it for the three signals and spawn the handler goroutine. -/
def startInterruptHandling (modules : List CoreModule) (st : State) : State :=
  { st.emit [Event.notify modules] with
    chan := Chan.empty, modules := modules, handler := HandlerPc.recv }

/-- One step of the main goroutine through `main` (lines 34-62). -/
def mainStep (env : Env) (st : State) : State :=
  match st.pc with
  | MainPc.parse =>
      if env.version then
        { st.emit [Event.print Line.version, Event.exit 0] with exit := some 0 }
      else { st with pc := MainPc.maxProcs }
  | MainPc.maxProcs =>
      { st.emit (setMaxProcs env.maxProcs env.numCPU env.gomaxprocs) with pc := MainPc.newModules }
  | MainPc.newModules => { st with pc := MainPc.interrupt }
  | MainPc.interrupt => { startInterruptHandling [c, s] st with pc := MainPc.startC }
  | MainPc.startC => { startModule Name.pluginController c st with pc := MainPc.inStartC }
  | MainPc.inStartC =>
      if env.startErr c then { startReturn env c st with pc := MainPc.failC }
      else { startReturn env c st with pc := MainPc.startS }
  | MainPc.failC => printErrorAndExit Name.pluginController st
  | MainPc.startS => { startModule Name.scheduler s st with pc := MainPc.inStartS }
  | MainPc.inStartS =>
      if env.startErr s then { startReturn env s st with pc := MainPc.checkStarted }
      else { startReturn env s st with pc := MainPc.block }
  | MainPc.checkStarted =>
      if st.cStarted then { st with pc := MainPc.stopC } else { st with pc := MainPc.failS }
  | MainPc.stopC => { stopModule env Thread.main c st with pc := MainPc.failS }
  | MainPc.failS => printErrorAndExit Name.scheduler st
  | MainPc.block => st

/-- One step of the handler goroutine (lines 105-113). -/
def handlerStep (env : Env) (st : State) : State :=
  match st.handler with
  | HandlerPc.absent => st
  | HandlerPc.recv =>
      match st.chan with
      | Chan.full sig =>
          { st.emit [Event.print Line.stopping] with
            chan := Chan.empty, handler := HandlerPc.loop sig 0 }
      | _ => st
  | HandlerPc.loop sig i =>
      match st.modules[i]? with
      | some m => { stopModule env Thread.handler m st with handler := HandlerPc.loop sig (i + 1) }
      | none =>
          { st.emit [Event.print (Line.exiting sig), Event.exit 0] with
            exit := some 0, handler := HandlerPc.done }
  | HandlerPc.done => st

/-- The runtime relays a signal to the registered channel without blocking: it
is buffered when the buffer is free and dropped otherwise.  SIGKILL is never
relayed, and before `signal.Notify` nothing is relayed.  The death of the
process by SIGKILL or by the default action of a signal that is not yet
registered is not an action of the program and lies outside this model. -/
def deliver (sig : Signal) (st : State) : State :=
  if sig.caught then
    match st.chan with
    | Chan.empty => { st with chan := Chan.full sig }
    | _ => st
  else st

/-! ## Executions -/

/-- What happens next: a goroutine takes a step or a signal is delivered. -/
inductive Action where
  | main
  | handler
  | deliver (sig : Signal)
deriving DecidableEq, Repr

/-- One transition of the process; nothing happens after `os.Exit`. -/
def step (env : Env) (st : State) (a : Action) : State :=
  if st.exit.isSome then st
  else match a with
    | Action.main => mainStep env st
    | Action.handler => handlerStep env st
    | Action.deliver sig => deliver sig st

/-- Run a schedule from a state. -/
def run (env : Env) (sched : List Action) (st : State) : State :=
  sched.foldl (step env) st

/-- Run a schedule from process start. -/
def exec (env : Env) (sched : List Action) : State :=
  run env sched init

/-- A schedule delivers no signal. -/
def noSignal (sched : List Action) : Prop :=
  ∀ sig, Action.deliver sig ∉ sched

/-! ## Observations on traces -/

/-- The calls to `Start`/`Stop`, the returns of `Start` and the calls to
`os.Exit` of a trace, in order. -/
def lifecycle (tr : List Event) : List Event :=
  tr.filter fun e => match e with
    | Event.startCall _ => true
    | Event.startRet _ _ => true
    | Event.stop _ _ => true
    | Event.exit _ => true
    | _ => false

/-- How often `m.Start()` was invoked. -/
def startCount (m : CoreModule) (tr : List Event) : Nat :=
  tr.count (Event.startCall m)

/-- How often `m.Stop()` was invoked, by either goroutine. -/
def stopCount (m : CoreModule) (tr : List Event) : Nat :=
  tr.count (Event.stop Thread.main m) + tr.count (Event.stop Thread.handler m)

/-- The modules stopped by the handler goroutine, in order. -/
def handlerStops (tr : List Event) : List CoreModule :=
  tr.filterMap fun e => match e with
    | Event.stop Thread.handler m => some m
    | _ => none

/-- Scan a trace from the left, remembering the modules whose `Start()` has
returned nil, and report whether every `Stop()` is on such a module. -/
def stopAfterStartFrom : List CoreModule → List Event → Bool
  | _, [] => true
  | started, Event.startRet m false :: tr => stopAfterStartFrom (m :: started) tr
  | started, Event.stop _ m :: tr => decide (m ∈ started) && stopAfterStartFrom started tr
  | started, _ :: tr => stopAfterStartFrom started tr

/-- No module is stopped unless its `Start()` has returned successfully before. -/
def stopAfterStart (tr : List Event) : Bool :=
  stopAfterStartFrom [] tr

/-- An environment for concrete runs: no version flag, `max_procs = 2` of four
processors, the runtime applies what it is asked, every `Start()` succeeds. -/
def envOk : Env :=
  { version := false, maxProcs := 2, numCPU := 4, gomaxprocs := fun n => n,
    startErr := fun _ => false, startedAfterStart := true, startedAfterStop := false }

/-- As `envOk`, but `Start()` fails for the modules in `bad`. -/
def envFail (bad : List CoreModule) : Env :=
  { envOk with startErr := fun m => decide (m ∈ bad) }

/-- As `envFail [s]`, but `c.Start()` returns nil without setting `c.Started`. -/
def envUnset : Env :=
  { envFail [s] with startedAfterStart := false }

/-- Line 48 with the argument list `modules` in the place of `c, s`: the state
in which `startInterruptHandling(modules...)` has returned and main is about to
go on at line 51. -/
def armedWith (modules : List CoreModule) (st : State) : State :=
  { startInterruptHandling modules st with pc := MainPc.startC }

/-- A signal arrives while `s.Start()` is running; that call returns its error
and then the handler runs to its end before main is scheduled again. -/
def schedHandlerFirst : List Action :=
  List.replicate 7 Action.main ++
    [Action.deliver Signal.sigterm, Action.main, Action.handler, Action.handler,
      Action.handler, Action.handler, Action.main, Action.main, Action.main]

/-- A signal arrives right after `startInterruptHandling(c, s)` has returned,
before any module is started, and the handler runs to its end. -/
def schedEarlySignal : List Action :=
  [Action.main, Action.main, Action.main, Action.main, Action.deliver Signal.sigterm,
    Action.handler, Action.handler, Action.handler, Action.handler]

/-- A signal arrives while `s.Start()` is running; main reads `c.Started`, the
handler stops `c`, and main goes on to line 56. -/
def schedSignalDuringStart : List Action :=
  List.replicate 7 Action.main ++
    [Action.deliver Signal.sigterm, Action.handler, Action.main, Action.main, Action.handler,
      Action.main]

/-- Both modules start, then two signals arrive before the handler is scheduled
and two more while it runs. -/
def schedTwoSignals : List Action :=
  List.replicate 8 Action.main ++
    [Action.deliver Signal.sigterm, Action.deliver Signal.interrupt, Action.handler,
      Action.deliver Signal.sigterm, Action.handler, Action.handler, Action.main,
      Action.deliver Signal.interrupt, Action.handler]

/-! ## Invariants of the reachable states -/

/-- Main has not yet reached the start of the modules. -/
def MainPc.beforeArm : MainPc → Bool
  | MainPc.parse => true
  | MainPc.maxProcs => true
  | MainPc.newModules => true
  | MainPc.interrupt => true
  | _ => false

/-- How often the handler has received from the signal channel (line 106 is
followed by the log line of line 107). -/
def receiveCount (tr : List Event) : Nat :=
  tr.count (Event.print Line.stopping)

/-- A state in which the handler cannot move: it is not spawned or waits on an
empty channel. -/
def Quiet (st : State) : Prop :=
  (st.handler = HandlerPc.absent ∨ st.handler = HandlerPc.recv) ∧ ∀ sig, st.chan ≠ Chan.full sig

/-- What the state records about a failed start. -/
def ExitInv (env : Env) (st : State) : Prop :=
  (st.exit = some 1 → ∃ m, env.startErr m = true ∧ Event.startRet m true ∈ st.trace) ∧
  (st.pc = MainPc.failC → env.startErr c = true ∧ Event.startRet c true ∈ st.trace) ∧
  (st.pc = MainPc.checkStarted ∨ st.pc = MainPc.stopC ∨ st.pc = MainPc.failS →
    env.startErr s = true ∧ Event.startRet s true ∈ st.trace)

/-- What the trace records about the progress of the handler goroutine. -/
def HandlerInv (st : State) : Prop :=
  (st.handler = HandlerPc.absent ∨ st.handler = HandlerPc.recv →
    handlerStops st.trace = [] ∧ receiveCount st.trace = 0) ∧
  (∀ sig i, st.handler = HandlerPc.loop sig i →
    handlerStops st.trace = st.modules.take i ∧ receiveCount st.trace = 1) ∧
  (st.handler = HandlerPc.done →
    handlerStops st.trace = st.modules ∧ receiveCount st.trace = 1 ∧ st.exit = some 0) ∧
  (st.pc.beforeArm = true → st.handler = HandlerPc.absent)

/-- The handler goroutine is armed for `ms` and has not received, and main is
past line 48. -/
def ArmedFor (ms : List CoreModule) (st : State) : Prop :=
  st.handler = HandlerPc.recv ∧ st.chan = Chan.empty ∧ st.modules = ms ∧
  st.pc.beforeArm = false ∧ handlerStops st.trace = []

/-- Once the handler goroutine exists, its modules are those of line 48. -/
def RegInv (st : State) : Prop :=
  st.handler ≠ HandlerPc.absent → st.modules = [c, s]

/-- The events contain a call to `runtime.GOMAXPROCS`. -/
def Configured (tr : List Event) : Prop :=
  ∃ n a b, tr = a ++ Event.gomaxprocs n :: b

/-- The events contain a call to `runtime.GOMAXPROCS` and, later, the
registration of the handler for the modules `c` and `s`. -/
def Armed (tr : List Event) : Prop :=
  ∃ n a b d, tr = a ++ Event.gomaxprocs n :: (b ++ Event.notify [c, s] :: d)

/-- Every `Start()` in the trace is on `c` or `s` and comes after the parallelism
was configured and the handler was registered for `c` and `s`. -/
def StartsArmed (tr : List Event) : Prop :=
  ∀ pre m post, tr = pre ++ Event.startCall m :: post → Armed pre ∧ m ∈ [c, s]

/-- What the program point of main says about the trace. -/
def ArmInv (st : State) : Prop :=
  StartsArmed st.trace ∧
  (st.pc = MainPc.newModules ∨ st.pc = MainPc.interrupt → Configured st.trace) ∧
  (st.pc.beforeArm = false → Armed st.trace)

end Pulse

namespace Pulse

/-! ## Parallelism configurator: results -/

/-- The argument of the single call to `runtime.GOMAXPROCS` in `setMaxProcs`. -/
lemma gomaxprocsCalls_setMaxProcs (r h : Int) (g : Int → Int) :
    gomaxprocsCalls (setMaxProcs r h g) =
      [if r ≤ 0 then 1 else if r > h then h else r] := by
  unfold setMaxProcs gomaxprocsCalls
  by_cases h1 : r ≤ 0 <;> by_cases h2 : r < 0 <;> by_cases h3 : r > h <;>
    by_cases h4 : g 1 = 1 <;> by_cases h5 : g h = h <;> by_cases h6 : g r = r <;>
    simp [h1, h2, h3, h4, h5, h6]

/-- C4: for every requested value `r` and every hardware ceiling `h ≥ 1`,
`setMaxProcs` calls `runtime.GOMAXPROCS` exactly once, with a value `n` such
that `1 ≤ n ≤ h`. -/
theorem C4_effective_in_range (r h : Int) (g : Int → Int) (hh : 1 ≤ h) :
    ∃ n, gomaxprocsCalls (setMaxProcs r h g) = [n] ∧ 1 ≤ n ∧ n ≤ h := by
  refine ⟨_, gomaxprocsCalls_setMaxProcs r h g, ?_, ?_⟩ <;> split_ifs <;> omega

/-- Witness of C4 at `max_procs = 7` on a four-processor machine. -/
theorem C4_effective_in_range_witness :
    ∃ n, gomaxprocsCalls (setMaxProcs 7 4 id) = [n] ∧ 1 ≤ n ∧ n ≤ 4 :=
  C4_effective_in_range 7 4 id (by decide)

/-- C5: the value passed to `runtime.GOMAXPROCS` is 1 when `r ≤ 0`, `h` when
`r > h` and `r > 0`, and `r` otherwise; in particular it is 1 for `r = 0` and
`r = -3`, `h` for `r = h + 5` when `h ≥ 1`, and 2 for `r = 2` when `2 ≤ h`. -/
theorem C5_effective_value (r h : Int) (g : Int → Int) :
    (r ≤ 0 → gomaxprocsCalls (setMaxProcs r h g) = [1]) ∧
    (0 < r → r > h → gomaxprocsCalls (setMaxProcs r h g) = [h]) ∧
    (0 < r → r ≤ h → gomaxprocsCalls (setMaxProcs r h g) = [r]) ∧
    gomaxprocsCalls (setMaxProcs 0 h g) = [1] ∧
    gomaxprocsCalls (setMaxProcs (-3) h g) = [1] ∧
    (1 ≤ h → gomaxprocsCalls (setMaxProcs (h + 5) h g) = [h]) ∧
    (2 ≤ h → gomaxprocsCalls (setMaxProcs 2 h g) = [2]) := by
  simp only [gomaxprocsCalls_setMaxProcs]
  refine ⟨?_, ?_, ?_, ?_, ?_, ?_, ?_⟩
  · intro h1; rw [if_pos h1]
  · intro h1 h2; rw [if_neg (by omega), if_pos h2]
  · intro h1 h2; rw [if_neg (by omega), if_neg (by omega)]
  · simp
  · simp
  · intro h1; rw [if_neg (by omega), if_pos (by omega)]
  · intro h1; rw [if_neg (by omega), if_neg (by omega)]

/-- Witness of C5 on a four-processor machine: 0 and -3 give 1, 9 gives 4 and
2 gives 2. -/
theorem C5_effective_value_witness :
    gomaxprocsCalls (setMaxProcs 0 4 id) = [1] ∧
    gomaxprocsCalls (setMaxProcs (-3) 4 id) = [1] ∧
    gomaxprocsCalls (setMaxProcs (4 + 5) 4 id) = [4] ∧
    gomaxprocsCalls (setMaxProcs 2 4 id) = [2] :=
  ⟨(C5_effective_value 0 4 id).1 (by decide),
   (C5_effective_value (-3) 4 id).1 (by decide),
   (C5_effective_value 0 4 id).2.2.2.2.2.1 (by decide),
   (C5_effective_value 2 4 id).2.2.1 (by decide) (by decide)⟩

/-- C10: with a hardware ceiling `h ≥ 0`, the events of `setMaxProcs` are some
events `pre`, the call `runtime.GOMAXPROCS(n)` and some events `post`, where
`pre` holds a configuration warning iff `r < 0` or `r > h` (and then exactly
one) and no mismatch warning, `post` holds a mismatch warning iff the re-read
value differs from `n` (and then exactly that one) and no configuration
warning, and `os.Exit` is not called. -/
theorem C10_warnings (r h : Int) (g : Int → Int) (hh : 0 ≤ h) :
    ∃ pre n post,
      setMaxProcs r h g = pre ++ Event.gomaxprocs n :: post ∧
      gomaxprocsCalls (setMaxProcs r h g) = [n] ∧
      (configWarnings pre ≠ [] ↔ (r < 0 ∨ r > h)) ∧
      (configWarnings pre).length ≤ 1 ∧ mismatchWarnings pre = [] ∧
      (mismatchWarnings post ≠ [] ↔ g n ≠ n) ∧
      (g n ≠ n → post = [Event.print (Line.warnMismatch n (g n))]) ∧
      configWarnings post = [] ∧
      exitCalls (setMaxProcs r h g) = [] := by
  unfold setMaxProcs
  by_cases h1 : r ≤ 0
  · by_cases h2 : r < 0
    · refine ⟨[Event.print Line.warnNegative, Event.print (Line.setting 1)], 1,
        if g 1 ≠ 1 then [Event.print (Line.warnMismatch 1 (g 1))] else [], ?_⟩
      by_cases h3 : g 1 = 1 <;>
        simp [h1, h2, h3, configWarnings, mismatchWarnings, exitCalls, gomaxprocsCalls,
          Line.isConfigWarning, Line.isMismatchWarning]
    · refine ⟨[Event.print (Line.setting 1)], 1,
        if g 1 ≠ 1 then [Event.print (Line.warnMismatch 1 (g 1))] else [], ?_⟩
      have h4 : ¬ r > h := by omega
      by_cases h3 : g 1 = 1 <;>
        simp [h1, h2, h3, configWarnings, mismatchWarnings, exitCalls, gomaxprocsCalls,
          Line.isConfigWarning, Line.isMismatchWarning] <;> omega
  · by_cases h2 : r > h
    · refine ⟨[Event.print (Line.warnAbove h), Event.print (Line.setting h)], h,
        if g h ≠ h then [Event.print (Line.warnMismatch h (g h))] else [], ?_⟩
      by_cases h3 : g h = h <;>
        simp [h1, h2, h3, configWarnings, mismatchWarnings, exitCalls, gomaxprocsCalls,
          Line.isConfigWarning, Line.isMismatchWarning]
    · refine ⟨[Event.print (Line.setting r)], r,
        if g r ≠ r then [Event.print (Line.warnMismatch r (g r))] else [], ?_⟩
      by_cases h3 : g r = r <;>
        simp [h1, h2, h3, configWarnings, mismatchWarnings, exitCalls, gomaxprocsCalls,
          Line.isConfigWarning, Line.isMismatchWarning] <;> omega

/-! ## Executions: general facts -/

set_option linter.unnecessarySeqFocus false
set_option linter.unusedTactic false

@[simp]
lemma stopModule_trace (env : Env) (t : Thread) (m : CoreModule) (st : State) :
    (stopModule env t m st).trace = st.trace ++ [Event.stop t m] := by
  unfold stopModule State.emit; split <;> rfl

@[simp]
lemma stopModule_exit (env : Env) (t : Thread) (m : CoreModule) (st : State) :
    (stopModule env t m st).exit = st.exit := by
  unfold stopModule State.emit; split <;> rfl

@[simp]
lemma stopModule_pc (env : Env) (t : Thread) (m : CoreModule) (st : State) :
    (stopModule env t m st).pc = st.pc := by
  unfold stopModule State.emit; split <;> rfl

@[simp]
lemma stopModule_handler (env : Env) (t : Thread) (m : CoreModule) (st : State) :
    (stopModule env t m st).handler = st.handler := by
  unfold stopModule State.emit; split <;> rfl

@[simp]
lemma stopModule_modules (env : Env) (t : Thread) (m : CoreModule) (st : State) :
    (stopModule env t m st).modules = st.modules := by
  unfold stopModule State.emit; split <;> rfl

@[simp]
lemma stopModule_chan (env : Env) (t : Thread) (m : CoreModule) (st : State) :
    (stopModule env t m st).chan = st.chan := by
  unfold stopModule State.emit; split <;> rfl

@[simp]
lemma startReturn_trace (env : Env) (m : CoreModule) (st : State) :
    (startReturn env m st).trace = st.trace ++ [Event.startRet m (env.startErr m)] := by
  unfold startReturn State.emit; split <;> rfl

@[simp]
lemma startReturn_exit (env : Env) (m : CoreModule) (st : State) :
    (startReturn env m st).exit = st.exit := by
  unfold startReturn State.emit; split <;> rfl

@[simp]
lemma startReturn_pc (env : Env) (m : CoreModule) (st : State) :
    (startReturn env m st).pc = st.pc := by
  unfold startReturn State.emit; split <;> rfl

@[simp]
lemma startReturn_handler (env : Env) (m : CoreModule) (st : State) :
    (startReturn env m st).handler = st.handler := by
  unfold startReturn State.emit; split <;> rfl

@[simp]
lemma startReturn_modules (env : Env) (m : CoreModule) (st : State) :
    (startReturn env m st).modules = st.modules := by
  unfold startReturn State.emit; split <;> rfl

@[simp]
lemma startReturn_chan (env : Env) (m : CoreModule) (st : State) :
    (startReturn env m st).chan = st.chan := by
  unfold startReturn State.emit; split <;> rfl

/-- A delivery changes nothing but the channel. -/
lemma deliver_fields (sig : Signal) (st : State) :
    (deliver sig st).pc = st.pc ∧ (deliver sig st).exit = st.exit ∧
    (deliver sig st).handler = st.handler ∧ (deliver sig st).modules = st.modules ∧
    (deliver sig st).trace = st.trace := by
  unfold deliver
  split
  · split <;> simp
  · simp

@[simp]
lemma deliver_pc (sig : Signal) (st : State) : (deliver sig st).pc = st.pc :=
  (deliver_fields sig st).1

@[simp]
lemma deliver_exit (sig : Signal) (st : State) : (deliver sig st).exit = st.exit :=
  (deliver_fields sig st).2.1

@[simp]
lemma deliver_handler (sig : Signal) (st : State) : (deliver sig st).handler = st.handler :=
  (deliver_fields sig st).2.2.1

@[simp]
lemma deliver_modules (sig : Signal) (st : State) : (deliver sig st).modules = st.modules :=
  (deliver_fields sig st).2.2.2.1

@[simp]
lemma deliver_trace (sig : Signal) (st : State) : (deliver sig st).trace = st.trace :=
  (deliver_fields sig st).2.2.2.2

lemma run_nil (env : Env) (st : State) : run env [] st = st := rfl

lemma run_cons (env : Env) (a : Action) (sched : List Action) (st : State) :
    run env (a :: sched) st = run env sched (step env st a) := rfl

lemma run_append (env : Env) (s₁ s₂ : List Action) (st : State) :
    run env (s₁ ++ s₂) st = run env s₂ (run env s₁ st) := by
  simp [run, List.foldl_append]

/-- Nothing happens after `os.Exit`. -/
lemma step_exited (env : Env) (st : State) (a : Action) (h : st.exit.isSome = true) :
    step env st a = st := by
  simp [step, h]

lemma run_exited (env : Env) (sched : List Action) (st : State) (h : st.exit.isSome = true) :
    run env sched st = st := by
  induction sched with
  | nil => rfl
  | cons a rest ih => rw [run_cons, step_exited env st a h, ih]

/-- A property that holds initially and is kept by every step holds after every
schedule. -/
lemma run_invariant (env : Env) (P : State → Prop)
    (hstep : ∀ st a, P st → P (step env st a)) :
    ∀ (sched : List Action) (st : State), P st → P (run env sched st) := by
  intro sched
  induction sched with
  | nil => intro st h; exact h
  | cons a rest ih => intro st h; rw [run_cons]; exact ih _ (hstep st a h)

lemma handlerStep_quiet (env : Env) (st : State) (h : Quiet st) : handlerStep env st = st := by
  obtain ⟨h1, h2⟩ := h
  unfold handlerStep
  rcases h1 with h1 | h1
  · rw [h1]
  · rw [h1]
    cases hc : st.chan with
    | full sig => exact absurd hc (h2 sig)
    | unregistered => rfl
    | empty => rfl

lemma mainStep_quiet (env : Env) (st : State) (h : Quiet st) : Quiet (mainStep env st) := by
  obtain ⟨h1, h2⟩ := h
  unfold mainStep
  split <;> (try split) <;>
    simp_all [Quiet, State.emit, startInterruptHandling, startModule, startReturn, stopModule,
      printErrorAndExit] <;>
    (try split) <;> simp_all

/-- Without signals only the main goroutine moves. -/
lemma run_noSignal (env : Env) :
    ∀ (sched : List Action) (st : State), noSignal sched → Quiet st →
      run env sched st = run env (List.replicate (sched.count Action.main) Action.main) st := by
  intro sched
  induction sched with
  | nil => intro st _ _; rfl
  | cons a rest ih =>
    intro st hs hq
    have hs2 : noSignal rest := fun sig hmem => hs sig (List.mem_cons_of_mem _ hmem)
    cases a with
    | main =>
      rw [List.count_cons_self, List.replicate_succ, run_cons, run_cons]
      by_cases he : st.exit.isSome = true
      · rw [step_exited env st _ he]; exact ih st hs2 hq
      · have : step env st Action.main = mainStep env st := by simp [step, he]
        rw [this]; exact ih _ hs2 (mainStep_quiet env st hq)
    | handler =>
      have hst : step env st Action.handler = st := by
        by_cases he : st.exit.isSome = true
        · exact step_exited env st _ he
        · simp [step, he, handlerStep_quiet env st hq]
      rw [run_cons, hst, List.count_cons_of_ne (by decide)]
      exact ih st hs2 hq
    | deliver sig => exact absurd (List.mem_cons_self _ _) (hs sig)

lemma quiet_init : Quiet init := by simp [Quiet, init]

/-- A state that a main step leaves alone is left alone by any number of them. -/
lemma run_main_fixed (env : Env) (st : State) (h : step env st Action.main = st) (n : Nat) :
    run env (List.replicate n Action.main) st = st := by
  induction n with
  | zero => rfl
  | succ n ih => rw [List.replicate_succ, run_cons, h, ih]

/-- With enough main steps, the state after `k` of them decides the outcome when
it is a fixed point. -/
lemma run_main_ge (env : Env) (st fin : State) (k n : Nat) (hk : k ≤ n)
    (hrun : run env (List.replicate k Action.main) st = fin)
    (hfix : step env fin Action.main = fin) :
    run env (List.replicate n Action.main) st = fin := by
  obtain ⟨d, rfl⟩ := Nat.exists_eq_add_of_le hk
  rw [List.replicate_add, run_append, hrun, run_main_fixed env fin hfix]

/-! ## Start-up without signals -/

@[simp]
lemma c_ne_s : c ≠ s := by decide

@[simp]
lemma s_ne_c : s ≠ c := by decide

/-- The events of `setMaxProcs` are log lines of lines 69-85 and the call to
`runtime.GOMAXPROCS`. -/
lemma setMaxProcs_mem (r h : Int) (g : Int → Int) (e : Event) (he : e ∈ setMaxProcs r h g) :
    e = Event.print Line.warnNegative ∨ e = Event.print (Line.warnAbove h) ∨
      (∃ n, e = Event.print (Line.setting n)) ∨ (∃ n, e = Event.gomaxprocs n) ∨
      ∃ a b, e = Event.print (Line.warnMismatch a b) := by
  unfold setMaxProcs at he
  simp only [List.mem_append, List.mem_cons, List.mem_singleton, List.not_mem_nil,
    or_false] at he
  rcases he with (he | he | he) | he
  · split_ifs at he <;> simp_all
  · exact Or.inr (Or.inr (Or.inl ⟨_, he⟩))
  · exact Or.inr (Or.inr (Or.inr (Or.inl ⟨_, he⟩)))
  · split_ifs at he <;> simp_all

lemma lifecycle_setMaxProcs (r h : Int) (g : Int → Int) :
    lifecycle (setMaxProcs r h g) = [] := by
  unfold lifecycle
  rw [List.filter_eq_nil_iff]
  intro e he
  rcases setMaxProcs_mem r h g e he with rfl | rfl | ⟨n, rfl⟩ | ⟨n, rfl⟩ | ⟨a, b, rfl⟩ <;> simp

lemma lifecycle_append (a b : List Event) : lifecycle (a ++ b) = lifecycle a ++ lifecycle b := by
  simp [lifecycle]

lemma count_lifecycle (tr : List Event) (e : Event) (he : lifecycle [e] = [e]) :
    tr.count e = (lifecycle tr).count e := by
  induction tr with
  | nil => rfl
  | cons x rest ih =>
    have hx : lifecycle (x :: rest) = lifecycle [x] ++ lifecycle rest :=
      lifecycle_append [x] rest
    rw [hx, List.count_append, List.count_cons, ih]
    by_cases hxe : x = e
    · subst hxe; rw [he]; simp; omega
    · have : (lifecycle [x]).count e = 0 := by
        rw [List.count_eq_zero]
        intro hmem
        have hsub : e ∈ [x] := List.mem_of_mem_filter hmem
        simp at hsub
        exact hxe hsub.symm
      simp [this, hxe]

lemma startCount_lifecycle (m : CoreModule) (tr : List Event) :
    startCount m tr = startCount m (lifecycle tr) :=
  count_lifecycle tr _ (by simp [lifecycle])

lemma stopCount_lifecycle (m : CoreModule) (tr : List Event) :
    stopCount m tr = stopCount m (lifecycle tr) := by
  unfold stopCount
  rw [count_lifecycle tr (Event.stop Thread.main m) (by simp [lifecycle]),
    count_lifecycle tr (Event.stop Thread.handler m) (by simp [lifecycle])]

/-- The state main reaches when `c.Start()` fails. -/
lemma main_failC (env : Env) (hv : env.version = false) (hc : env.startErr c = true) :
    ∃ fin, run env (List.replicate 7 Action.main) init = fin ∧
      step env fin Action.main = fin ∧ fin.exit = some 1 ∧
      lifecycle fin.trace = [Event.startCall c, Event.startRet c true, Event.exit 1] := by
  refine ⟨_, rfl, ?_, ?_, ?_⟩ <;>
    simp [run, step, mainStep, init, hv, hc, State.emit, startInterruptHandling, startModule,
      startReturn, printErrorAndExit, lifecycle_append, lifecycle_setMaxProcs] <;>
    simp [lifecycle]

/-- The state main reaches when `c.Start()` succeeds and `s.Start()` fails. -/
lemma main_failS (env : Env) (hv : env.version = false) (hc : env.startErr c = false)
    (hs : env.startErr s = true) (hst : env.startedAfterStart = true) :
    ∃ fin, run env (List.replicate 12 Action.main) init = fin ∧
      step env fin Action.main = fin ∧ fin.exit = some 1 ∧
      lifecycle fin.trace = [Event.startCall c, Event.startRet c false, Event.startCall s,
        Event.startRet s true, Event.stop Thread.main c, Event.exit 1] := by
  refine ⟨_, rfl, ?_, ?_, ?_⟩ <;>
    simp [run, step, mainStep, init, hv, hc, hs, hst, State.emit, startInterruptHandling,
      startModule, startReturn, stopModule, printErrorAndExit, lifecycle_append,
      lifecycle_setMaxProcs] <;>
    simp [lifecycle]

/-- The state main reaches when both modules start. -/
lemma main_block (env : Env) (hv : env.version = false) (hc : env.startErr c = false)
    (hs : env.startErr s = false) :
    ∃ fin, run env (List.replicate 8 Action.main) init = fin ∧
      step env fin Action.main = fin ∧ fin.exit = none ∧ fin.pc = MainPc.block ∧
      lifecycle fin.trace = [Event.startCall c, Event.startRet c false, Event.startCall s,
        Event.startRet s false] := by
  refine ⟨_, rfl, ?_, ?_, ?_, ?_⟩ <;>
    simp [run, step, mainStep, init, hv, hc, hs, State.emit, startInterruptHandling,
      startModule, startReturn, stopModule, printErrorAndExit, lifecycle_append,
      lifecycle_setMaxProcs] <;>
    simp [lifecycle]

/-- Without signals and with enough main steps, an execution ends in the state
that the main goroutine reaches on its own after `k` steps. -/
lemma exec_noSignal (env : Env) (sched : List Action) (fin : State) (k : Nat)
    (hsig : noSignal sched) (hk : k ≤ sched.count Action.main)
    (hrun : run env (List.replicate k Action.main) init = fin)
    (hfix : step env fin Action.main = fin) : exec env sched = fin := by
  unfold exec
  rw [run_noSignal env sched init hsig quiet_init]
  exact run_main_ge env init fin k _ hk hrun hfix

/-- The state main reaches when `c.Start()` succeeds without setting
`c.Started` and `s.Start()` fails. -/
lemma main_failS_unset (env : Env) (hv : env.version = false) (hc : env.startErr c = false)
    (hs : env.startErr s = true) (hst : env.startedAfterStart = false) :
    ∃ fin, run env (List.replicate 12 Action.main) init = fin ∧
      step env fin Action.main = fin ∧ fin.exit = some 1 ∧
      lifecycle fin.trace = [Event.startCall c, Event.startRet c false, Event.startCall s,
        Event.startRet s true, Event.exit 1] := by
  refine ⟨_, rfl, ?_, ?_, ?_⟩ <;>
    simp [run, step, mainStep, init, hv, hc, hs, hst, State.emit, startInterruptHandling,
      startModule, startReturn, stopModule, printErrorAndExit, lifecycle_append,
      lifecycle_setMaxProcs] <;>
    simp [lifecycle]

/-- C1, as amended: in an execution without the version flag in which no signal
is delivered and main runs to its end: if `c.Start()` (module 1) fails, the
calls on modules are `c.Start()` alone, no `Stop()` is called, `s.Start()` is
never invoked and the process exits with status 1; if `c.Start()` returns nil
and `s.Start()` (module 2) fails, then `c.Stop()` is called exactly once, before
the exit, when `c.Started` is set at line 55, and not at all when it is not set;
in both cases `s.Stop()` is never called and the process exits with status 1. -/
theorem C1_startup_failure_unwind (env : Env) (sched : List Action)
    (hv : env.version = false) (hsig : noSignal sched)
    (hlen : 12 ≤ sched.count Action.main) :
    (env.startErr c = true →
      (exec env sched).exit = some 1 ∧
      lifecycle (exec env sched).trace =
        [Event.startCall c, Event.startRet c true, Event.exit 1] ∧
      stopCount c (exec env sched).trace = 0 ∧
      stopCount s (exec env sched).trace = 0 ∧
      startCount s (exec env sched).trace = 0) ∧
    (env.startErr c = false → env.startErr s = true →
      (exec env sched).exit = some 1 ∧
      lifecycle (exec env sched).trace =
        [Event.startCall c, Event.startRet c false, Event.startCall s,
          Event.startRet s true] ++
        (if env.startedAfterStart = true then [Event.stop Thread.main c] else []) ++
        [Event.exit 1] ∧
      stopCount c (exec env sched).trace = (if env.startedAfterStart = true then 1 else 0) ∧
      stopCount s (exec env sched).trace = 0) := by
  constructor
  · intro hc
    obtain ⟨fin, hrun, hfix, hexit, hlife⟩ := main_failC env hv hc
    have h := exec_noSignal env sched fin 7 hsig (by omega) hrun hfix
    rw [h]
    refine ⟨hexit, hlife, ?_, ?_, ?_⟩
    · rw [stopCount_lifecycle, hlife]; decide
    · rw [stopCount_lifecycle, hlife]; decide
    · rw [startCount_lifecycle, hlife]; decide
  · intro hc hs
    cases hst : env.startedAfterStart with
    | true =>
      obtain ⟨fin, hrun, hfix, hexit, hlife⟩ := main_failS env hv hc hs hst
      have h := exec_noSignal env sched fin 12 hsig hlen hrun hfix
      rw [h]
      refine ⟨hexit, by rw [hlife]; rfl, ?_, ?_⟩
      · rw [stopCount_lifecycle, hlife]; decide
      · rw [stopCount_lifecycle, hlife]; decide
    | false =>
      obtain ⟨fin, hrun, hfix, hexit, hlife⟩ := main_failS_unset env hv hc hs hst
      have h := exec_noSignal env sched fin 12 hsig hlen hrun hfix
      rw [h]
      refine ⟨hexit, by rw [hlife]; rfl, ?_, ?_⟩
      · rw [stopCount_lifecycle, hlife]; decide
      · rw [stopCount_lifecycle, hlife]; decide

/-- C6: in an execution without the version flag in which no signal is
delivered, both `Start()` calls succeed and main runs long enough, the calls on
modules are exactly `c.Start()` and then `s.Start()`, each once and each
returning nil, no `Stop()` is called, `os.Exit` is not called and main stands at
`select {}`. -/
theorem C6_successful_startup (env : Env) (sched : List Action)
    (hv : env.version = false) (hsig : noSignal sched)
    (hlen : 8 ≤ sched.count Action.main)
    (hc : env.startErr c = false) (hs : env.startErr s = false) :
    lifecycle (exec env sched).trace =
      [Event.startCall c, Event.startRet c false, Event.startCall s, Event.startRet s false] ∧
    startCount c (exec env sched).trace = 1 ∧
    startCount s (exec env sched).trace = 1 ∧
    (∀ m, stopCount m (exec env sched).trace = 0) ∧
    (exec env sched).exit = none ∧
    (exec env sched).pc = MainPc.block := by
  obtain ⟨fin, hrun, hfix, hexit, hpc, hlife⟩ := main_block env hv hc hs
  have h := exec_noSignal env sched fin 8 hsig hlen hrun hfix
  rw [h]
  refine ⟨hlife, ?_, ?_, ?_, hexit, hpc⟩
  · rw [startCount_lifecycle, hlife]; decide
  · rw [startCount_lifecycle, hlife]; decide
  · intro m; rw [stopCount_lifecycle, hlife]; simp [stopCount]

lemma noSignal_replicate_main (n : Nat) : noSignal (List.replicate n Action.main) := by
  intro sig h
  simp [List.mem_replicate] at h

/-- Witness of C1, as amended: `c.Start()` fails in the first run, `s.Start()`
fails with `c.Started` set in the second and with `c.Started` not set in the
third. -/
theorem C1_startup_failure_unwind_witness :
    ((exec (envFail [c]) (List.replicate 12 Action.main)).exit = some 1 ∧
      lifecycle (exec (envFail [c]) (List.replicate 12 Action.main)).trace =
        [Event.startCall c, Event.startRet c true, Event.exit 1] ∧
      stopCount c (exec (envFail [c]) (List.replicate 12 Action.main)).trace = 0 ∧
      stopCount s (exec (envFail [c]) (List.replicate 12 Action.main)).trace = 0 ∧
      startCount s (exec (envFail [c]) (List.replicate 12 Action.main)).trace = 0) ∧
    ((exec (envFail [s]) (List.replicate 12 Action.main)).exit = some 1 ∧
      stopCount c (exec (envFail [s]) (List.replicate 12 Action.main)).trace = 1 ∧
      stopCount s (exec (envFail [s]) (List.replicate 12 Action.main)).trace = 0) ∧
    ((exec envUnset (List.replicate 12 Action.main)).exit = some 1 ∧
      stopCount c (exec envUnset (List.replicate 12 Action.main)).trace = 0 ∧
      stopCount s (exec envUnset (List.replicate 12 Action.main)).trace = 0) :=
  have h1 := (C1_startup_failure_unwind (envFail [c]) (List.replicate 12 Action.main) rfl
    (noSignal_replicate_main 12) (by decide)).1 (by decide)
  have h2 := (C1_startup_failure_unwind (envFail [s]) (List.replicate 12 Action.main) rfl
    (noSignal_replicate_main 12) (by decide)).2 (by decide) (by decide)
  have h3 := (C1_startup_failure_unwind envUnset (List.replicate 12 Action.main) rfl
    (noSignal_replicate_main 12) (by decide)).2 (by decide) (by decide)
  ⟨h1, ⟨h2.1, h2.2.2.1, h2.2.2.2⟩, ⟨h3.1, h3.2.2.1, h3.2.2.2⟩⟩

/-- C1 as stated fails: `c.Start()` returns nil and `s.Start()` returns an error
in each of these runs.  In the first a signal arrives while `s.Start()` is
running and `c` is stopped twice before exit status 1; in the second the
handler runs first, so that `s` is stopped and the exit status is 0; in the
third no signal arrives but `c.Started` is not set, so that line 55 skips
`c.Stop()`. -/
theorem C1_unwind_counterexample :
    (envFail [s]).startErr c = false ∧ (envFail [s]).startErr s = true ∧
    stopCount c (exec (envFail [s])
      (schedSignalDuringStart ++ List.replicate 12 Action.main)).trace = 2 ∧
    (exec (envFail [s]) (schedSignalDuringStart ++ List.replicate 12 Action.main)).exit =
      some 1 ∧
    Event.startRet s true ∈ (exec (envFail [s]) schedHandlerFirst).trace ∧
    stopCount s (exec (envFail [s]) schedHandlerFirst).trace = 1 ∧
    (exec (envFail [s]) schedHandlerFirst).exit = some 0 ∧
    envUnset.startErr c = false ∧ envUnset.startErr s = true ∧
    stopCount c (exec envUnset (List.replicate 12 Action.main)).trace = 0 ∧
    (exec envUnset (List.replicate 12 Action.main)).exit = some 1 := by
  decide

/-- Witness of C6: both modules start and the handler goroutine is scheduled in
between. -/
theorem C6_successful_startup_witness :
    lifecycle (exec envOk (Action.handler :: List.replicate 8 Action.main)).trace =
      [Event.startCall c, Event.startRet c false, Event.startCall s, Event.startRet s false] ∧
    startCount c (exec envOk (Action.handler :: List.replicate 8 Action.main)).trace = 1 ∧
    startCount s (exec envOk (Action.handler :: List.replicate 8 Action.main)).trace = 1 ∧
    (exec envOk (Action.handler :: List.replicate 8 Action.main)).exit = none ∧
    (exec envOk (Action.handler :: List.replicate 8 Action.main)).pc = MainPc.block :=
  have h := C6_successful_startup envOk (Action.handler :: List.replicate 8 Action.main) rfl
    (by intro sig h; simp [List.mem_replicate] at h) (by decide) rfl rfl
  ⟨h.1, h.2.1, h.2.2.1, h.2.2.2.2.1, h.2.2.2.2.2⟩

/-- Witness of C10 at `max_procs = -1` on a four-processor machine. -/
theorem C10_warnings_witness :
    ∃ pre n post,
      setMaxProcs (-1) 4 id = pre ++ Event.gomaxprocs n :: post ∧
      gomaxprocsCalls (setMaxProcs (-1) 4 id) = [n] ∧
      (configWarnings pre ≠ [] ↔ ((-1 : Int) < 0 ∨ (-1 : Int) > 4)) ∧
      (configWarnings pre).length ≤ 1 ∧ mismatchWarnings pre = [] ∧
      (mismatchWarnings post ≠ [] ↔ id n ≠ n) ∧
      (id n ≠ n → post = [Event.print (Line.warnMismatch n (id n))]) ∧
      configWarnings post = [] ∧
      exitCalls (setMaxProcs (-1) 4 id) = [] :=
  C10_warnings (-1) 4 id (by decide)

/-! ## The version flag and the exit status -/

/-- The state after the version has been printed. -/
lemma exec_version (env : Env) (hv : env.version = true) (sched : List Action) :
    exec env sched =
      if 0 < sched.count Action.main then
        { init with trace := [Event.print Line.version, Event.exit 0], exit := some 0 }
      else init := by
  unfold exec
  induction sched with
  | nil => rfl
  | cons a rest ih =>
    rw [run_cons]
    cases a with
    | main =>
      have h1 : step env init Action.main =
          { init with trace := [Event.print Line.version, Event.exit 0], exit := some 0 } := by
        simp [step, mainStep, init, hv, State.emit]
      rw [h1, run_exited env rest _ (by rfl)]
      simp
    | handler =>
      have h1 : step env init Action.handler = init := by simp [step, handlerStep, init]
      rw [h1, ih, List.count_cons_of_ne (by decide)]
    | deliver sig =>
      have h1 : step env init (Action.deliver sig) = init := by simp [step, deliver, init]
      rw [h1, ih, List.count_cons_of_ne (by simp)]

lemma exitInv_step (env : Env) (st : State) (a : Action) (h : ExitInv env st) :
    ExitInv env (step env st a) := by
  by_cases he : st.exit.isSome = true
  · rw [step_exited env st a he]; exact h
  · obtain ⟨h1, h2, h3⟩ := h
    have hn : st.exit = none := by simpa using he
    cases a with
    | main =>
      simp only [step, he, Bool.false_eq_true, if_false]
      unfold mainStep
      split <;> (try split) <;>
        simp_all [ExitInv, State.emit, startInterruptHandling, startModule,
          printErrorAndExit] <;>
        first | exact ⟨c, h2⟩ | exact ⟨s, h3⟩
    | handler =>
      simp only [step, he, Bool.false_eq_true, if_false]
      unfold handlerStep
      split <;> (try split) <;>
        simp_all [ExitInv, State.emit]
    | deliver sig =>
      simp only [step, he, Bool.false_eq_true, if_false]
      unfold ExitInv
      simp only [deliver_pc, deliver_exit, deliver_trace]
      exact ⟨h1, h2, h3⟩

/-- C9: when the version flag is set, in every execution in which main takes a
step the whole trace is the version line followed by `os.Exit(0)`, whatever the
other flags, the schedule and the signals are, and before that step the trace is
empty; and in every execution, exit status 1 implies that some `Start()`
returned an error. -/
theorem C9_version_short_circuit (env : Env) (sched : List Action) :
    (env.version = true →
      (0 < sched.count Action.main →
        (exec env sched).trace = [Event.print Line.version, Event.exit 0] ∧
        (exec env sched).exit = some 0) ∧
      (sched.count Action.main = 0 →
        (exec env sched).trace = [] ∧ (exec env sched).exit = none) ∧
      gomaxprocsCalls (exec env sched).trace = [] ∧
      (∀ ms, Event.notify ms ∉ (exec env sched).trace) ∧
      (exec env sched).handler = HandlerPc.absent ∧
      (∀ m, startCount m (exec env sched).trace = 0 ∧
        stopCount m (exec env sched).trace = 0)) ∧
    ((exec env sched).exit = some 1 →
      ∃ m, env.startErr m = true ∧ Event.startRet m true ∈ (exec env sched).trace) := by
  constructor
  · intro hv
    rw [exec_version env hv sched]
    by_cases hc : 0 < sched.count Action.main
    · simp [hc, gomaxprocsCalls, startCount, stopCount, init]
      omega
    · simp [hc, gomaxprocsCalls, startCount, stopCount, init]
  · have hinv : ExitInv env (exec env sched) :=
      run_invariant env (ExitInv env) (exitInv_step env) sched init (by simp [ExitInv, init])
    exact hinv.1

/-- Witness of C9: the version flag is set, `max_procs` is out of range, a
signal is sent and both goroutines are scheduled. -/
theorem C9_version_short_circuit_witness :
    (exec { envOk with version := true, maxProcs := -5 }
        [Action.deliver Signal.sigterm, Action.handler, Action.main, Action.main]).trace =
      [Event.print Line.version, Event.exit 0] ∧
    (exec { envOk with version := true, maxProcs := -5 }
        [Action.deliver Signal.sigterm, Action.handler, Action.main, Action.main]).exit =
      some 0 :=
  ((C9_version_short_circuit { envOk with version := true, maxProcs := -5 }
    [Action.deliver Signal.sigterm, Action.handler, Action.main, Action.main]).1 rfl).1
    (by decide)

/-! ## The handler goroutine -/

lemma handlerStops_append (a b : List Event) :
    handlerStops (a ++ b) = handlerStops a ++ handlerStops b := by
  simp [handlerStops]

lemma receiveCount_append (a b : List Event) :
    receiveCount (a ++ b) = receiveCount a + receiveCount b := by
  simp [receiveCount]

lemma handlerStops_setMaxProcs (r h : Int) (g : Int → Int) :
    handlerStops (setMaxProcs r h g) = [] := by
  unfold handlerStops
  rw [List.filterMap_eq_nil_iff]
  intro e he
  rcases setMaxProcs_mem r h g e he with rfl | rfl | ⟨n, rfl⟩ | ⟨n, rfl⟩ | ⟨a, b, rfl⟩ <;> rfl

lemma receiveCount_setMaxProcs (r h : Int) (g : Int → Int) :
    receiveCount (setMaxProcs r h g) = 0 := by
  unfold receiveCount
  rw [List.count_eq_zero]
  intro he
  rcases setMaxProcs_mem r h g _ he with h1 | h1 | ⟨n, h1⟩ | ⟨n, h1⟩ | ⟨a, b, h1⟩ <;>
    simp at h1

/-- A main step other than the call of `startInterruptHandling` leaves the
handler goroutine alone and appends events that are not the handler's. -/
lemma mainStep_frame (env : Env) (st : State) (hpc : st.pc ≠ MainPc.interrupt) :
    (mainStep env st).handler = st.handler ∧ (mainStep env st).modules = st.modules ∧
    (mainStep env st).chan = st.chan ∧
    ((mainStep env st).pc.beforeArm = true → st.pc.beforeArm = true) ∧
    ((mainStep env st).exit = st.exit ∨ (mainStep env st).exit = some 0 ∨
      (mainStep env st).exit = some 1) ∧
    ∃ es, (mainStep env st).trace = st.trace ++ es ∧ handlerStops es = [] ∧
      receiveCount es = 0 := by
  unfold mainStep
  split <;> (try split) <;>
    simp_all [State.emit, startModule, printErrorAndExit, handlerStops_setMaxProcs,
      receiveCount_setMaxProcs, MainPc.beforeArm] <;>
    simp [handlerStops, receiveCount]

lemma handlerInv_step (env : Env) (st : State) (a : Action) (h : HandlerInv st) :
    HandlerInv (step env st a) := by
  by_cases he : st.exit.isSome = true
  · rw [step_exited env st a he]; exact h
  · obtain ⟨h1, h2, h3, h4⟩ := h
    have hn : st.exit = none := by simpa using he
    cases a with
    | main =>
      simp only [step, he, Bool.false_eq_true, if_false]
      by_cases hpc : st.pc = MainPc.interrupt
      · have hab : st.handler = HandlerPc.absent := h4 (by rw [hpc]; rfl)
        have h1a := h1 (Or.inl hab)
        simp [mainStep, hpc, HandlerInv, startInterruptHandling, State.emit, handlerStops_append,
          receiveCount_append, h1a, MainPc.beforeArm]
        simp [handlerStops, receiveCount]
      · obtain ⟨f1, f2, f3, f4, f5, es, f6, f7, f8⟩ := mainStep_frame env st hpc
        refine ⟨?_, ?_, ?_, ?_⟩
        · rw [f1, f6, handlerStops_append, receiveCount_append, f7, f8]
          intro hh; simpa using h1 hh
        · rw [f1, f2, f6, handlerStops_append, receiveCount_append, f7, f8]
          intro sig i hh; simpa using h2 sig i hh
        · rw [f1]; intro hh; rw [(h3 hh).2.2] at hn; cases hn
        · rw [f1]; intro hh; exact h4 (f4 hh)
    | handler =>
      simp only [step, he, Bool.false_eq_true, if_false]
      unfold handlerStep
      split
      · exact ⟨h1, h2, h3, h4⟩
      · rename_i hh
        have hb : st.pc.beforeArm = false := by
          cases hba : st.pc.beforeArm
          · rfl
          · rw [h4 hba] at hh; cases hh
        split
        · have h1a := h1 (Or.inr hh)
          simp [HandlerInv, State.emit, handlerStops_append, receiveCount_append, h1a, hb]
          simp [handlerStops, receiveCount]
        · exact ⟨h1, h2, h3, h4⟩
      · rename_i sig i hh
        have hb : st.pc.beforeArm = false := by
          cases hba : st.pc.beforeArm
          · rfl
          · rw [h4 hba] at hh; cases hh
        have h2a := h2 sig i hh
        split
        · rename_i m hm
          simp only [HandlerInv, stopModule_trace, stopModule_modules, stopModule_pc,
            handlerStops_append, receiveCount_append, h2a, hb]
          refine ⟨by simp, ?_, by simp, by simp⟩
          intro sig2 j hj
          simp only [HandlerPc.loop.injEq] at hj
          rw [← hj.2, List.take_succ, hm]
          simp [handlerStops, receiveCount]
        · rename_i hm
          have hlen : st.modules.length ≤ i := by simpa using hm
          simp only [HandlerInv, State.emit, handlerStops_append, receiveCount_append, h2a, hb]
          refine ⟨by simp, by simp, ?_, by simp⟩
          intro _
          rw [List.take_of_length_le hlen]
          simp [handlerStops, receiveCount]
      · exact ⟨h1, h2, h3, h4⟩
    | deliver sig =>
      simp only [step, he, Bool.false_eq_true, if_false]
      unfold HandlerInv
      simp only [deliver_pc, deliver_exit, deliver_trace, deliver_handler, deliver_modules]
      exact ⟨h1, h2, h3, h4⟩

lemma handlerStep_modules (env : Env) (st : State) :
    (handlerStep env st).modules = st.modules ∧
      (st.handler ≠ HandlerPc.absent → (handlerStep env st).handler ≠ HandlerPc.absent) := by
  unfold handlerStep
  split
  · simp
  · split <;> simp_all [State.emit]
  · split <;> simp_all [State.emit]
  · simp

lemma regInv_step (env : Env) (st : State) (a : Action) (h : HandlerInv st ∧ RegInv st) :
    HandlerInv (step env st a) ∧ RegInv (step env st a) := by
  refine ⟨handlerInv_step env st a h.1, ?_⟩
  obtain ⟨_, hr⟩ := h
  by_cases he : st.exit.isSome = true
  · rw [step_exited env st a he]; exact hr
  · cases a with
    | main =>
      simp only [step, he, Bool.false_eq_true, if_false]
      by_cases hpc : st.pc = MainPc.interrupt
      · simp [mainStep, hpc, RegInv, startInterruptHandling, State.emit]
      · obtain ⟨f1, f2, _⟩ := mainStep_frame env st hpc
        unfold RegInv
        rw [f1, f2]; exact hr
    | handler =>
      simp only [step, he, Bool.false_eq_true, if_false]
      unfold RegInv
      rw [(handlerStep_modules env st).1]
      intro hh
      apply hr
      intro hab
      apply hh
      simp [handlerStep, hab]
    | deliver sig =>
      simp only [step, he, Bool.false_eq_true, if_false]
      unfold RegInv
      simp only [deliver_handler, deliver_modules]
      exact hr

/-- Both invariants hold in every reachable state. -/
lemma handlerInv_exec (env : Env) (sched : List Action) :
    HandlerInv (exec env sched) ∧ RegInv (exec env sched) :=
  run_invariant env (fun st => HandlerInv st ∧ RegInv st) (regInv_step env) sched init
    (by simp [HandlerInv, RegInv, init, handlerStops, receiveCount, MainPc.beforeArm])

lemma count_stop_handler (m : CoreModule) (tr : List Event) :
    tr.count (Event.stop Thread.handler m) = (handlerStops tr).count m := by
  induction tr with
  | nil => rfl
  | cons e rest ih =>
    have hcons : handlerStops (e :: rest) = handlerStops [e] ++ handlerStops rest :=
      handlerStops_append [e] rest
    rw [hcons, List.count_append, List.count_cons, ih]
    cases e with
    | stop t m2 =>
      cases t with
      | main => simp [handlerStops]
      | handler =>
        by_cases hm : m2 = m
        · subst hm; simp [handlerStops]; omega
        · have hm2 : ¬ m = m2 := fun h => hm h.symm
          simp [handlerStops, hm, hm2, List.count_cons]
    | _ => simp [handlerStops]

lemma count_take_modules (m : CoreModule) (i : Nat) : ([c, s].take i).count m ≤ 1 := by
  have h1 : ([c, s].take i).count m ≤ [c, s].count m :=
    (List.take_sublist i [c, s]).count_le m
  have h2 : [c, s].count m ≤ 1 := by
    by_cases hc : m = c
    · subst hc; decide
    · have hc2 : ¬ c = m := fun h => hc h.symm
      simp only [List.count_cons, List.count_nil, beq_iff_eq, hc2, if_false]
      split <;> omega
  omega

/-- C7: in every execution, whatever number of signals is delivered, the
handler receives from the signal channel at most once, it calls `Stop()` on no
module more than once, the modules it has stopped are an initial segment of
`[c, s]`, and once it has called `os.Exit(0)` it has stopped exactly `c` and
then `s` after exactly one receive. -/
theorem C7_one_shot_shutdown (env : Env) (sched : List Action) :
    receiveCount (exec env sched).trace ≤ 1 ∧
    (∀ m, (exec env sched).trace.count (Event.stop Thread.handler m) ≤ 1) ∧
    (∃ i, handlerStops (exec env sched).trace = [c, s].take i) ∧
    ((exec env sched).handler = HandlerPc.done →
      receiveCount (exec env sched).trace = 1 ∧
      handlerStops (exec env sched).trace = [c, s] ∧
      (exec env sched).exit = some 0) := by
  obtain ⟨⟨h1, h2, h3, h4⟩, hr⟩ := handlerInv_exec env sched
  have key : receiveCount (exec env sched).trace ≤ 1 ∧
      ∃ i, handlerStops (exec env sched).trace = [c, s].take i := by
    cases hh : (exec env sched).handler with
    | absent =>
      obtain ⟨a1, a2⟩ := h1 (Or.inl hh)
      exact ⟨by omega, 0, by simpa using a1⟩
    | recv =>
      obtain ⟨a1, a2⟩ := h1 (Or.inr hh)
      exact ⟨by omega, 0, by simpa using a1⟩
    | loop sig i =>
      obtain ⟨a1, a2⟩ := h2 sig i hh
      have hm := hr (by rw [hh]; simp)
      exact ⟨by omega, i, by rw [a1, hm]⟩
    | done =>
      obtain ⟨a1, a2, _⟩ := h3 hh
      have hm := hr (by rw [hh]; simp)
      exact ⟨by omega, 2, by rw [a1, hm]; rfl⟩
  obtain ⟨k1, i, k2⟩ := key
  refine ⟨k1, ?_, ⟨i, k2⟩, ?_⟩
  · intro m
    rw [count_stop_handler, k2]
    exact count_take_modules m i
  · intro hh
    obtain ⟨a1, a2, a3⟩ := h3 hh
    have hm := hr (by rw [hh]; simp)
    exact ⟨a2, by rw [a1, hm], a3⟩

/-! ## Shutdown on a signal -/

lemma step_main_block (env : Env) (st : State) (hpc : st.pc = MainPc.block) :
    step env st Action.main = st := by
  unfold step
  split
  · rfl
  · simp [mainStep, hpc]

lemma step_deliver_fields (env : Env) (st : State) (sig : Signal) :
    (step env st (Action.deliver sig)).pc = st.pc ∧
    (step env st (Action.deliver sig)).exit = st.exit ∧
    (step env st (Action.deliver sig)).handler = st.handler ∧
    (step env st (Action.deliver sig)).modules = st.modules ∧
    (step env st (Action.deliver sig)).trace = st.trace := by
  by_cases he : st.exit.isSome = true
  · rw [step_exited env st _ he]; simp
  · simp only [step, he, Bool.false_eq_true, if_false]
    simp

/-- The stop pass: from `modules[i]` on, every module is stopped once, in
order, and the process exits with status 0. -/
lemma run_loop (env : Env) :
    ∀ (sched : List Action) (st : State) (sig : Signal) (i : Nat),
      st.pc = MainPc.block → st.exit = none → st.handler = HandlerPc.loop sig i →
      i ≤ st.modules.length →
      (st.modules.length - i) + 1 ≤ sched.count Action.handler →
      (run env sched st).exit = some 0 ∧ (run env sched st).handler = HandlerPc.done ∧
      (run env sched st).trace =
        st.trace ++ ((st.modules.drop i).map (Event.stop Thread.handler) ++
          [Event.print (Line.exiting sig), Event.exit 0]) := by
  intro sched
  induction sched with
  | nil => intro st sig i _ _ _ _ hc; simp at hc
  | cons a rest ih =>
    intro st sig i hpc hex hh hi hc
    rw [run_cons]
    cases a with
    | main =>
      rw [step_main_block env st hpc]
      rw [List.count_cons_of_ne (by decide)] at hc
      exact ih st sig i hpc hex hh hi hc
    | deliver sg =>
      obtain ⟨d1, d2, d3, d4, d5⟩ := step_deliver_fields env st sg
      rw [List.count_cons_of_ne (by simp)] at hc
      have := ih (step env st (Action.deliver sg)) sig i (by rw [d1, hpc]) (by rw [d2, hex])
        (by rw [d3, hh]) (by rw [d4]; exact hi) (by rw [d4]; exact hc)
      rw [d4, d5] at this
      exact this
    | handler =>
      rw [List.count_cons_self] at hc
      have hs : step env st Action.handler = handlerStep env st := by simp [step, hex]
      rw [hs]
      unfold handlerStep
      rw [hh]
      simp only []
      cases hm : st.modules[i]? with
      | some m =>
        simp only []
        have hlt : i < st.modules.length := by
          by_contra hcon
          have : st.modules[i]? = none := List.getElem?_eq_none (by omega)
          rw [this] at hm; cases hm
        have hget : st.modules[i] = m := by
          have := List.getElem?_eq_getElem hlt
          rw [this] at hm; exact Option.some.inj hm
        have := ih { stopModule env Thread.handler m st with handler := HandlerPc.loop sig (i + 1) }
          sig (i + 1) (by simp [hpc]) (by simp [hex]) rfl (by simp; omega) (by simp; omega)
        simp only [stopModule_trace, stopModule_modules] at this
        rw [List.drop_eq_getElem_cons hlt, hget]
        simpa using this
      | none =>
        simp only []
        have hlen : st.modules.length ≤ i := by simpa using hm
        rw [run_exited env rest _ (by rfl)]
        simp [State.emit, List.drop_of_length_le hlen]

/-- From the armed state with a buffered signal, the handler receives it once
and performs the stop pass. -/
lemma run_recv (env : Env) :
    ∀ (sched : List Action) (st : State) (sig : Signal),
      st.pc = MainPc.block → st.exit = none → st.handler = HandlerPc.recv →
      st.chan = Chan.full sig →
      st.modules.length + 2 ≤ sched.count Action.handler →
      (run env sched st).exit = some 0 ∧ (run env sched st).handler = HandlerPc.done ∧
      (run env sched st).trace =
        st.trace ++ (Event.print Line.stopping ::
          (st.modules.map (Event.stop Thread.handler) ++
            [Event.print (Line.exiting sig), Event.exit 0])) := by
  intro sched
  induction sched with
  | nil => intro st sig _ _ _ _ hc; simp at hc
  | cons a rest ih =>
    intro st sig hpc hex hh hch hc
    rw [run_cons]
    cases a with
    | main =>
      rw [step_main_block env st hpc]
      rw [List.count_cons_of_ne (by decide)] at hc
      exact ih st sig hpc hex hh hch hc
    | deliver sg =>
      have hs : step env st (Action.deliver sg) = st := by simp [step, hex, deliver, hch]
      rw [List.count_cons_of_ne (by simp)] at hc
      rw [hs]
      exact ih st sig hpc hex hh hch hc
    | handler =>
      rw [List.count_cons_self] at hc
      have hs : step env st Action.handler =
          { st.emit [Event.print Line.stopping] with
            chan := Chan.empty, handler := HandlerPc.loop sig 0 } := by
        simp [step, hex, handlerStep, hh, hch]
      rw [hs]
      have := run_loop env rest
        { st.emit [Event.print Line.stopping] with
          chan := Chan.empty, handler := HandlerPc.loop sig 0 }
        sig 0 (by simp [State.emit, hpc]) (by simp [State.emit, hex]) rfl (by simp)
        (by simp [State.emit]; omega)
      simpa [State.emit] using this

/-- Steps of the goroutines keep the handler armed as long as no signal is
delivered. -/
lemma armedFor_step (env : Env) (ms : List CoreModule) (st : State) (a : Action)
    (h : ArmedFor ms st) (ha : ∀ sig, a ≠ Action.deliver sig) :
    ArmedFor ms (step env st a) := by
  by_cases he : st.exit.isSome = true
  · rw [step_exited env st a he]; exact h
  · obtain ⟨h1, h2, h3, h4, h5⟩ := h
    cases a with
    | main =>
      simp only [step, he, Bool.false_eq_true, if_false]
      have hpc : st.pc ≠ MainPc.interrupt := by
        intro hp; rw [hp] at h4; cases h4
      obtain ⟨f1, f2, f3, f4, _, es, f6, f7, _⟩ := mainStep_frame env st hpc
      refine ⟨by rw [f1, h1], by rw [f3, h2], by rw [f2, h3], ?_, ?_⟩
      · cases hb : (mainStep env st).pc.beforeArm
        · rfl
        · rw [f4 hb] at h4; cases h4
      · rw [f6, handlerStops_append, h5, f7]; rfl
    | handler =>
      simp only [step, he, Bool.false_eq_true, if_false]
      have hq : handlerStep env st = st := by simp [handlerStep, h1, h2]
      rw [hq]; exact ⟨h1, h2, h3, h4, h5⟩
    | deliver sig => exact absurd rfl (ha sig)

lemma armedFor_run (env : Env) (ms : List CoreModule) :
    ∀ (sched : List Action) (st : State), noSignal sched → ArmedFor ms st →
      ArmedFor ms (run env sched st) := by
  intro sched
  induction sched with
  | nil => intro st _ h; exact h
  | cons a rest ih =>
    intro st hs h
    rw [run_cons]
    refine ih _ (fun sig hmem => hs sig (List.mem_cons_of_mem _ hmem))
      (armedFor_step env ms st a h ?_)
    intro sig hsig
    exact hs sig (by rw [hsig]; exact List.mem_cons_self _ _)

/-- The call of `startInterruptHandling` at line 48 arms the handler for its
argument list. -/
lemma armedFor_armedWith (env : Env) (ms : List CoreModule) (pre : List Action)
    (hline : (exec env pre).pc = MainPc.interrupt) :
    ArmedFor ms (armedWith ms (exec env pre)) := by
  obtain ⟨⟨h1, _, _, h4⟩, _⟩ := handlerInv_exec env pre
  have hab := h4 (by rw [hline]; rfl)
  obtain ⟨hs, _⟩ := h1 (Or.inl hab)
  refine ⟨rfl, rfl, rfl, rfl, ?_⟩
  simp only [armedWith, startInterruptHandling, State.emit]
  rw [handlerStops_append, hs]; rfl

lemma handlerStops_map_stop (ms : List CoreModule) :
    handlerStops (ms.map (Event.stop Thread.handler)) = ms := by
  induction ms with
  | nil => rfl
  | cons m rest ih =>
    have : handlerStops (Event.stop Thread.handler m :: rest.map (Event.stop Thread.handler)) =
        handlerStops [Event.stop Thread.handler m] ++
          handlerStops (rest.map (Event.stop Thread.handler)) :=
      handlerStops_append [Event.stop Thread.handler m] _
    rw [List.map_cons, this, ih]; rfl

/-- C3, as amended: let `startInterruptHandling` be called at line 48 with any
list `ms` of modules (possibly empty, possibly with repetitions), let main then
reach `select {}` without a signal being delivered, and let a signal that can be
caught (`os.Interrupt` or `syscall.SIGTERM`) arrive.  Once the handler has been
scheduled `ms.length + 2` times, whatever else is scheduled and whatever further
signals arrive, the events added to the trace are the log line of line 107, one
`Stop()` for each entry of `ms` in order, the log line of line 111 and
`os.Exit(0)`: the handler has stopped every module exactly as often as it is
listed in `ms`, hence once when it is listed once, and the process has exited
with status 0. -/
theorem C3_signal_shutdown (env : Env) (ms : List CoreModule)
    (pre startup sched : List Action) (sig : Signal)
    (hline : (exec env pre).pc = MainPc.interrupt)
    (hstart : noSignal startup)
    (hpc : (run env startup (armedWith ms (exec env pre))).pc = MainPc.block)
    (hex : (run env startup (armedWith ms (exec env pre))).exit = none)
    (hsig : sig.caught = true)
    (hlen : ms.length + 2 ≤ sched.count Action.handler) :
    (run env (Action.deliver sig :: sched)
      (run env startup (armedWith ms (exec env pre)))).exit = some 0 ∧
    (run env (Action.deliver sig :: sched)
      (run env startup (armedWith ms (exec env pre)))).trace =
      (run env startup (armedWith ms (exec env pre))).trace ++
        (Event.print Line.stopping ::
          (ms.map (Event.stop Thread.handler) ++
            [Event.print (Line.exiting sig), Event.exit 0])) ∧
    handlerStops (run env (Action.deliver sig :: sched)
      (run env startup (armedWith ms (exec env pre)))).trace = ms ∧
    ∀ m, (run env (Action.deliver sig :: sched)
      (run env startup (armedWith ms (exec env pre)))).trace.count
        (Event.stop Thread.handler m) = ms.count m := by
  obtain ⟨hh, hch, hm, _, hstops⟩ :=
    armedFor_run env ms startup _ hstart (armedFor_armedWith env ms pre hline)
  generalize run env startup (armedWith ms (exec env pre)) = st at *
  subst hm
  rw [run_cons]
  have hs : step env st (Action.deliver sig) = { st with chan := Chan.full sig } := by
    simp [step, hex, deliver, hch, hsig]
  rw [hs]
  obtain ⟨r1, _, r3⟩ := run_recv env sched { st with chan := Chan.full sig } sig hpc hex hh rfl
    hlen
  have r3 : (run env sched { st with chan := Chan.full sig }).trace =
      st.trace ++ (Event.print Line.stopping ::
        (st.modules.map (Event.stop Thread.handler) ++
          [Event.print (Line.exiting sig), Event.exit 0])) := r3
  have hst : handlerStops (run env sched { st with chan := Chan.full sig }).trace =
      st.modules := by
    rw [r3, handlerStops_append, hstops]
    have : handlerStops (Event.print Line.stopping ::
        (st.modules.map (Event.stop Thread.handler) ++
          [Event.print (Line.exiting sig), Event.exit 0])) =
        handlerStops [Event.print Line.stopping] ++
          (handlerStops (st.modules.map (Event.stop Thread.handler)) ++
            handlerStops [Event.print (Line.exiting sig), Event.exit 0]) := by
      rw [← handlerStops_append, ← handlerStops_append]; rfl
    rw [this, handlerStops_map_stop]
    simp [handlerStops]
  refine ⟨r1, r3, hst, ?_⟩
  intro m
  rw [count_stop_handler, hst]

/-! ## Arming before start -/

lemma armed_append (tr es : List Event) (h : Armed tr) : Armed (tr ++ es) := by
  obtain ⟨n, a, b, d, rfl⟩ := h
  exact ⟨n, a, b, d ++ es, by simp⟩

lemma configured_append (tr es : List Event) (h : Configured tr) : Configured (tr ++ es) := by
  obtain ⟨n, a, b, rfl⟩ := h
  exact ⟨n, a, b ++ es, by simp⟩

lemma armed_notify (tr : List Event) (h : Configured tr) :
    Armed (tr ++ [Event.notify [c, s]]) := by
  obtain ⟨n, a, b, rfl⟩ := h
  exact ⟨n, a, b, [], by simp⟩

lemma configured_setMaxProcs (r h : Int) (g : Int → Int) : Configured (setMaxProcs r h g) := by
  have hmem : Event.gomaxprocs (if r ≤ 0 then 1 else if r > h then h else r) ∈
      setMaxProcs r h g := by
    unfold setMaxProcs
    by_cases h1 : r ≤ 0 <;> by_cases h3 : r > h <;> simp [h1, h3]
  obtain ⟨a, b, hab⟩ := List.append_of_mem hmem
  exact ⟨_, a, b, hab⟩

/-- Appending events keeps `StartsArmed` when each `Start()` among them is on
`c` or `s` and the trace is armed, or when there is none. -/
lemma startsArmed_append (tr es : List Event) (h : StartsArmed tr)
    (hes : ∀ m, Event.startCall m ∈ es → Armed tr ∧ m ∈ [c, s]) : StartsArmed (tr ++ es) := by
  intro pre m post heq
  rcases List.append_eq_append_iff.mp heq with ⟨a, h1, h2⟩ | ⟨b, h1, h2⟩
  · have hmem : Event.startCall m ∈ es := by rw [h2]; simp
    obtain ⟨ha, hm⟩ := hes m hmem
    exact ⟨by rw [h1]; exact armed_append tr a ha, hm⟩
  · cases b with
    | nil =>
      have hmem : Event.startCall m ∈ es := by
        simp only [List.nil_append] at h2; rw [← h2]; simp
      obtain ⟨ha, hm⟩ := hes m hmem
      simp only [List.append_nil] at h1
      exact ⟨by rw [← h1]; exact ha, hm⟩
    | cons x b2 =>
      simp only [List.cons_append, List.cons.injEq] at h2
      obtain ⟨hx, _⟩ := h2
      exact h pre m b2 (by rw [h1, ← hx])

lemma startCall_not_mem_setMaxProcs (r h : Int) (g : Int → Int) (m : CoreModule) :
    Event.startCall m ∉ setMaxProcs r h g := by
  intro he
  rcases setMaxProcs_mem r h g _ he with h1 | h1 | ⟨n, h1⟩ | ⟨n, h1⟩ | ⟨a, b, h1⟩ <;> cases h1

lemma armInv_step (env : Env) (st : State) (a : Action) (h : ArmInv st) :
    ArmInv (step env st a) := by
  by_cases he : st.exit.isSome = true
  · rw [step_exited env st a he]; exact h
  · obtain ⟨h1, h2, h3⟩ := h
    cases a with
    | main =>
      simp only [step, he, Bool.false_eq_true, if_false]
      unfold mainStep
      split
      · rename_i hpc
        split
        · refine ⟨startsArmed_append _ _ h1 (by simp), by simp [State.emit, hpc], ?_⟩
          intro hb; simp [State.emit, hpc, MainPc.beforeArm] at hb
        · exact ⟨h1, by simp, by simp [MainPc.beforeArm]⟩
      · refine ⟨startsArmed_append _ _ h1 ?_, ?_, by simp [MainPc.beforeArm]⟩
        · intro m hm; exact absurd hm (startCall_not_mem_setMaxProcs _ _ _ m)
        · intro _
          simp only [State.emit]
          obtain ⟨n, a, b, hab⟩ := configured_setMaxProcs env.maxProcs env.numCPU env.gomaxprocs
          exact ⟨n, st.trace ++ a, b, by rw [hab]; simp⟩
      · rename_i hpc
        exact ⟨h1, fun _ => h2 (Or.inl hpc), by simp [MainPc.beforeArm]⟩
      · rename_i hpc
        refine ⟨startsArmed_append _ _ h1 (by simp), by simp, fun _ => ?_⟩
        exact armed_notify _ (h2 (Or.inr hpc))
      · rename_i hpc
        have ha := h3 (by rw [hpc]; rfl)
        refine ⟨startsArmed_append _ _ h1 ?_, by simp, fun _ => armed_append _ _ ha⟩
        intro m hm
        simp at hm
        exact ⟨ha, by simp [hm]⟩
      · rename_i hpc
        have ha := h3 (by rw [hpc]; rfl)
        split <;>
          exact ⟨by simpa using startsArmed_append _ _ h1 (by simp), by simp,
            fun _ => by simpa using armed_append _ _ ha⟩
      · rename_i hpc
        have ha := h3 (by rw [hpc]; rfl)
        exact ⟨startsArmed_append _ _ h1 (by simp), by simp [printErrorAndExit, State.emit, hpc],
          fun _ => armed_append _ _ ha⟩
      · rename_i hpc
        have ha := h3 (by rw [hpc]; rfl)
        refine ⟨startsArmed_append _ _ h1 ?_, by simp, fun _ => armed_append _ _ ha⟩
        intro m hm
        simp at hm
        exact ⟨ha, by simp [hm]⟩
      · rename_i hpc
        have ha := h3 (by rw [hpc]; rfl)
        split <;>
          exact ⟨by simpa using startsArmed_append _ _ h1 (by simp), by simp,
            fun _ => by simpa using armed_append _ _ ha⟩
      · rename_i hpc
        have ha := h3 (by rw [hpc]; rfl)
        split <;> exact ⟨h1, by simp, fun _ => ha⟩
      · rename_i hpc
        have ha := h3 (by rw [hpc]; rfl)
        exact ⟨by simpa using startsArmed_append _ _ h1 (by simp), by simp,
          fun _ => by simpa using armed_append _ _ ha⟩
      · rename_i hpc
        have ha := h3 (by rw [hpc]; rfl)
        exact ⟨startsArmed_append _ _ h1 (by simp), by simp [printErrorAndExit, State.emit, hpc],
          fun _ => armed_append _ _ ha⟩
      · exact ⟨h1, h2, h3⟩
    | handler =>
      simp only [step, he, Bool.false_eq_true, if_false]
      unfold handlerStep
      split
      · exact ⟨h1, h2, h3⟩
      · split
        · exact ⟨startsArmed_append _ _ h1 (by simp), fun hp => configured_append _ _ (h2 hp),
            fun hp => armed_append _ _ (h3 hp)⟩
        · exact ⟨h1, h2, h3⟩
      · split
        · exact ⟨by simpa using startsArmed_append _ _ h1 (by simp),
            fun hp => by simpa using configured_append _ _ (h2 (by simpa using hp)),
            fun hp => by simpa using armed_append _ _ (h3 (by simpa using hp))⟩
        · exact ⟨startsArmed_append _ _ h1 (by simp), fun hp => configured_append _ _ (h2 hp),
            fun hp => armed_append _ _ (h3 hp)⟩
      · exact ⟨h1, h2, h3⟩
    | deliver sig =>
      simp only [step, he, Bool.false_eq_true, if_false]
      unfold ArmInv
      simp only [deliver_pc, deliver_trace]
      exact ⟨h1, h2, h3⟩

/-- C8: in every execution, whenever `m.Start()` is invoked, `m` is `c` or `s`
and the events before that call contain the call to `runtime.GOMAXPROCS` made by
`setMaxProcs` and, after it, the registration of the signal handler for exactly
the modules `c` and `s`. -/
theorem C8_arming_order (env : Env) (sched : List Action) (pre post : List Event)
    (m : CoreModule) (h : (exec env sched).trace = pre ++ Event.startCall m :: post) :
    (∃ n a b d, pre = a ++ Event.gomaxprocs n :: (b ++ Event.notify [c, s] :: d)) ∧
    m ∈ [c, s] := by
  have hinv : ArmInv (exec env sched) :=
    run_invariant env ArmInv (armInv_step env) sched init (by
      refine ⟨?_, by simp [init], by simp [init, MainPc.beforeArm]⟩
      intro pre m post h
      simp [init] at h)
  exact hinv.1 pre m post h

/-- Witness of C8: the first `Start()` of a run, on `c`, comes after the call to
`runtime.GOMAXPROCS` and the registration of the handler. -/
theorem C8_arming_order_witness :
    (∃ n a b d,
      [Event.print (Line.setting 2), Event.gomaxprocs 2, Event.notify [c, s],
        Event.print (Line.starting Name.pluginController)] =
        a ++ Event.gomaxprocs n :: (b ++ Event.notify [c, s] :: d)) ∧
    c ∈ [c, s] :=
  C8_arming_order envOk (List.replicate 5 Action.main)
    [Event.print (Line.setting 2), Event.gomaxprocs 2, Event.notify [c, s],
      Event.print (Line.starting Name.pluginController)] [] c (by decide)

/-- Witness of C3, as amended: the handler is armed for `[c, s]`, both modules
start, SIGTERM arrives, then the handler is scheduled four times while another
signal arrives and main is scheduled; and the same with the empty list. -/
theorem C3_signal_shutdown_witness :
    ((run envOk
      (Action.deliver Signal.sigterm ::
        [Action.handler, Action.deliver Signal.interrupt, Action.main, Action.handler,
          Action.handler, Action.handler])
      (run envOk [Action.main, Action.handler, Action.main, Action.main, Action.main]
        (armedWith [c, s] (exec envOk (List.replicate 3 Action.main))))).exit = some 0 ∧
    handlerStops (run envOk
      (Action.deliver Signal.sigterm ::
        [Action.handler, Action.deliver Signal.interrupt, Action.main, Action.handler,
          Action.handler, Action.handler])
      (run envOk [Action.main, Action.handler, Action.main, Action.main, Action.main]
        (armedWith [c, s] (exec envOk (List.replicate 3 Action.main))))).trace = [c, s]) ∧
    ((run envOk (Action.deliver Signal.interrupt :: [Action.handler, Action.handler])
      (run envOk (List.replicate 4 Action.main)
        (armedWith [] (exec envOk (List.replicate 3 Action.main))))).exit = some 0 ∧
    handlerStops (run envOk (Action.deliver Signal.interrupt :: [Action.handler, Action.handler])
      (run envOk (List.replicate 4 Action.main)
        (armedWith [] (exec envOk (List.replicate 3 Action.main))))).trace = []) :=
  have h1 := C3_signal_shutdown envOk [c, s] (List.replicate 3 Action.main)
    [Action.main, Action.handler, Action.main, Action.main, Action.main]
    [Action.handler, Action.deliver Signal.interrupt, Action.main, Action.handler,
      Action.handler, Action.handler] Signal.sigterm
    (by decide) (by intro sig h; simp at h) (by decide) (by decide) (by decide) (by decide)
  have h2 := C3_signal_shutdown envOk [] (List.replicate 3 Action.main)
    (List.replicate 4 Action.main) [Action.handler, Action.handler] Signal.interrupt
    (by decide) (noSignal_replicate_main 4) (by decide) (by decide) (by decide) (by decide)
  ⟨⟨h1.1, h1.2.2.1⟩, ⟨h2.1, h2.2.2.1⟩⟩

/-- C3 as stated fails: when `startInterruptHandling` is called with the list
`[c, c]`, both modules start and SIGTERM arrives, the handler calls `c.Stop()`
twice before `os.Exit(0)`; and when the signal is SIGKILL, which cannot be
caught, the handler receives nothing, stops no module and does not call
`os.Exit(0)`. -/
theorem C3_signal_shutdown_counterexample :
    (run envOk (Action.deliver Signal.sigterm :: List.replicate 4 Action.handler)
      (run envOk (List.replicate 4 Action.main)
        (armedWith [c, c] (exec envOk (List.replicate 3 Action.main))))).exit = some 0 ∧
    (run envOk (Action.deliver Signal.sigterm :: List.replicate 4 Action.handler)
      (run envOk (List.replicate 4 Action.main)
        (armedWith [c, c] (exec envOk (List.replicate 3 Action.main))))).trace.count
      (Event.stop Thread.handler c) = 2 ∧
    (run envOk (Action.deliver Signal.kill :: List.replicate 4 Action.handler)
      (exec envOk (List.replicate 8 Action.main))).exit = none ∧
    handlerStops (run envOk (Action.deliver Signal.kill :: List.replicate 4 Action.handler)
      (exec envOk (List.replicate 8 Action.main))).trace = [] := by
  decide

/-- Witness of C7: four signals are delivered and the handler runs to its end;
it has received once and stopped `c` and `s` once each. -/
theorem C7_one_shot_shutdown_witness :
    receiveCount (exec envOk schedTwoSignals).trace = 1 ∧
    handlerStops (exec envOk schedTwoSignals).trace = [c, s] ∧
    (exec envOk schedTwoSignals).exit = some 0 :=
  (C7_one_shot_shutdown envOk schedTwoSignals).2.2.2 (by decide)

/-! ## Stop before start -/

/-- C2, evaluated: when a signal arrives before any module is started, the
handler calls `c.Stop()` and `s.Stop()` although no `Start()` was ever invoked;
when a signal arrives while `s.Start()` is running and that call fails, `c` is
stopped twice, once by the handler and once by main. -/
theorem C2_stop_without_start :
    lifecycle (exec envOk schedEarlySignal).trace =
      [Event.stop Thread.handler c, Event.stop Thread.handler s, Event.exit 0] ∧
    stopAfterStart (exec envOk schedEarlySignal).trace = false ∧
    startCount c (exec envOk schedEarlySignal).trace = 0 ∧
    lifecycle (exec (envFail [s]) schedSignalDuringStart).trace =
      [Event.startCall c, Event.startRet c false, Event.startCall s, Event.startRet s true,
        Event.stop Thread.handler c, Event.stop Thread.main c] ∧
    stopCount c (exec (envFail [s]) schedSignalDuringStart).trace = 2 := by
  decide

end Pulse
